import Mathlib

/-!
Shallow embedding of `p2p/lightchain.py` (the `LightPeerChain` service of a
light Ethereum client) and proofs about its header-sync, request/reply
correlation and on-demand lookup logic.

Hashes, addresses and opaque byte strings are modelled as `Nat`; the
asynchronous effects of the Python code (outbound requests, sleeps, replies
from the remote peer) are modelled by an explicit event log and an oracle
listing the successive reply outcomes the network produces.
-/

namespace LightChain

/-- Modelled from the spec: `evm.constants.GENESIS_BLOCK_NUMBER` (the `evm`
package is not under `src/`); the spec fixes genesis at block number 0
(`is_genesis` iff `block_number == 0`). -/
def GENESIS_BLOCK_NUMBER : Nat := 0

/-- A block header, keeping only the fields the core reads: `block_number`,
`parent_hash`, `state_root`, plus `extraData` standing for all remaining
header contents (they matter only through the derived hash). -/
structure BlockHeader where
  blockNumber : Nat
  parentHash : Nat
  stateRoot : Nat
  extraData : Nat
  deriving DecidableEq, Repr

/-- Modelled from the spec: `header.hash` is derived from the header's
contents (keccak of its RLP encoding in the source; both `eth_hash` and
`rlp` are external packages not under `src/`). We model the derived hash by
an injective pairing of the fields. -/
def BlockHeader.hash (h : BlockHeader) : Nat :=
  Nat.pair h.blockNumber (Nat.pair h.parentHash (Nat.pair h.stateRoot h.extraData))

/-- `header.is_genesis` iff `block_number == GENESIS_BLOCK_NUMBER`. -/
def BlockHeader.is_genesis (h : BlockHeader) : Bool :=
  h.blockNumber == GENESIS_BLOCK_NUMBER

/-- `les.HeadInfo`: a peer-announced chain tip. -/
structure HeadInfo where
  blockHash : Nat
  blockNumber : Nat
  totalDifficulty : Nat
  reorgDepth : Nat
  deriving DecidableEq, Repr

/-- The slice of `LESPeer` the core reads: an identity (for keying maps) and
`max_headers_fetch`. -/
structure Peer where
  id : Nat
  maxHeadersFetch : Nat
  deriving DecidableEq, Repr

/-- The exception taxonomy of the code. `p2p.exceptions` and
`evm.exceptions` are not under `src/`; modelled from the spec's error
table (§4.C, §7), which treats these as distinct, unrelated exception
kinds: a handler for one never catches another, and a generic handler
catches any of them. `timeoutError` is the `TimeoutError` raised by the
reply-wait helper; `fuelExhausted` is a model artifact standing for a
non-terminating `while` loop (never raised by the modelled code paths the
theorems exercise). -/
inductive Err where
  | validationError
  | headerNotFound
  | blockNotFound
  | badLESResponse
  | emptyGetBlockHeadersReply
  | lesAnnouncementProcessingError
  | tooManyTimeouts
  | timeoutError
  | operationCancelled
  | badTrieProof
  | fuelExhausted
  deriving DecidableEq, Repr

/-- `p2p.p2p_proto.DisconnectReason`: only the two reasons the core emits. -/
inductive DisconnectReason where
  | subprotocol_error
  | timeout_reason
  deriving DecidableEq, Repr

/-! ## Header database

The async header DB (`trinity.db.header.BaseAsyncHeaderDB`, external) is
modelled by the list of persisted headers in persist order plus the
canonical head. `coro_persist_header` appends to the list; canonical-head
accounting on reorgs belongs to the external persist layer and none of the
modelled code paths re-read the head after persisting. -/

structure HeaderDB where
  persisted : List BlockHeader
  head : BlockHeader
  deriving DecidableEq, Repr

/-- `coro_header_exists(hash)`. -/
def HeaderDB.header_exists (db : HeaderDB) (h : Nat) : Bool :=
  db.persisted.any (fun hd => hd.hash == h)

/-- `coro_get_block_header_by_hash(hash)`: the stored header with that hash,
if any (raises `HeaderNotFound` otherwise; callers pattern-match). -/
def HeaderDB.get_block_header_by_hash (db : HeaderDB) (h : Nat) : Option BlockHeader :=
  db.persisted.find? (fun hd => hd.hash == h)

/-- `coro_persist_header(header)`. -/
def HeaderDB.persist_header (db : HeaderDB) (h : BlockHeader) : HeaderDB :=
  { db with persisted := db.persisted ++ [h] }

/-! ## Pending replies: `_wait_for_reply` registration and `_run` dispatch

`self._pending_replies : Dict[int, Callable]` maps a request id to the
one-shot callback registered by `_wait_for_reply`. We model the dict as an
association list from request id to the identity of the waiter whose
callback is registered, and the interleaving of `_run`'s dispatch branch
(lines handling `msg.get('request_id')`), `_wait_for_reply`'s registration,
and the reply-timeout firing, as a small-step machine over event traces. -/

/-- `request_id → registered callback`, the callback identified by its
waiter. -/
abbrev Pending := List (Nat × Nat)

/-- Remove the first entry with the given key (`dict.pop` under the unique-
keys discipline). -/
def eraseKey (p : Pending) (rid : Nat) : Pending :=
  p.eraseP (fun kv => kv.1 == rid)

/-- One event of the reply-correlation machinery: `_wait_for_reply`
registering a callback under a fresh request id; `_run` receiving a dict
message whose `request_id` field is `rid?` (`none` when the message carries
no request id); or the reply timeout firing for a waiter (the code performs
no cleanup on that path). -/
inductive PEvent where
  | register (rid waiter : Nat)
  | msg (rid? : Option Nat)
  | timeoutFire (waiter : Nat)
  deriving DecidableEq, Repr

/-- State of the reply-correlation machinery: the pending-replies dict, the
deliveries performed so far (request id and waiter, oldest first), and the
waiters whose reply wait has timed out. -/
structure PState where
  pending : Pending
  delivered : List (Nat × Nat)
  timedOut : List Nat
  deriving DecidableEq, Repr

/-- One step. `register` is the assignment `self._pending_replies[request_id]
= callback` in `_wait_for_reply`; `msg` is the `elif isinstance(msg, dict)`
branch of `_run` (pop and invoke the callback when the id is pending, do
nothing otherwise); `timeoutFire` is `self.wait(...)` raising `TimeoutError`
inside `_wait_for_reply`, which mutates nothing. -/
def pstep (s : PState) (e : PEvent) : PState :=
  match e with
  | .register rid w => { s with pending := s.pending ++ [(rid, w)] }
  | .msg none => s
  | .msg (some rid) =>
    match s.pending.lookup rid with
    | some w =>
      { s with pending := eraseKey s.pending rid
               delivered := s.delivered ++ [(rid, w)] }
    | none => s
  | .timeoutFire w => { s with timedOut := s.timedOut ++ [w] }

/-- Run a trace of events. -/
def prun (s : PState) : List PEvent → PState
  | [] => s
  | e :: es => prun (pstep s e) es

/-- Number of deliveries made for a given request id. -/
def deliveredCount (rid : Nat) (s : PState) : Nat :=
  s.delivered.countP (fun kv => kv.1 == rid)

/-- Number of pending entries keyed by a given request id. -/
def pendingCount (rid : Nat) (p : Pending) : Nat :=
  p.countP (fun kv => kv.1 == rid)

/-- Whether an event registers the given request id. -/
def registersId (rid : Nat) : PEvent → Bool
  | .register r _ => r == rid
  | _ => false

/-! ## Header sync

The synchronizer's interaction with the network is modelled by an oracle:
the list of outcomes the successive `GetBlockHeaders` round trips produce
(either the reply wait times out, or a `headers` list arrives), and an
event log recording the outbound requests, the retry sleeps, and the
peer-lifecycle actions the service performs. -/

/-- Outcome of one `GetBlockHeaders` round trip as observed through
`_wait_for_reply`: a `TimeoutError`, or the reply's `headers` payload. -/
inductive FetchOutcome where
  | timeoutOutcome
  | reply (headers : List BlockHeader)
  deriving DecidableEq, Repr

/-- Observable actions of the service, oldest first:
`send_get_block_headers(start_block, max_headers, reverse=False)` for a
numbered batch fetch; `send_get_block_headers(block_hash, 1)` for a
header-by-hash lookup; `asyncio.sleep` (milliseconds); `peer.disconnect`;
`peer.cancel()`. -/
inductive Ev where
  | sendGetBlockHeaders (startBlock maxHeaders : Nat) (reverse : Bool)
  | sendGetBlockHeadersByHash (blockHash maxHeaders : Nat)
  | sleepMs (ms : Nat)
  | disconnect (peerId : Nat) (reason : DisconnectReason)
  | cancelPeer (peerId : Nat)
  deriving DecidableEq, Repr

/-- State threaded through the sync code: the header database, the reply
oracle (outcomes not yet consumed), and the event log. -/
structure SyncSt where
  db : HeaderDB
  oracle : List FetchOutcome
  events : List Ev
  deriving DecidableEq, Repr

/-- `_fetch_headers_starting_at(peer, start_block)`: send
`GetBlockHeaders(start_block, peer.max_headers_fetch, reverse=False)`,
await the correlated reply, raise `EmptyGetBlockHeadersReply` when the
reply's `headers` list is empty, otherwise return it. An exhausted oracle
is a model artifact reported as `fuelExhausted`. -/
def fetch_headers_starting_at (peer : Peer) (startBlock : Nat) (st : SyncSt) :
    Except Err (List BlockHeader) × SyncSt :=
  let st1 := { st with
    events := st.events ++ [Ev.sendGetBlockHeaders startBlock peer.maxHeadersFetch false] }
  match st1.oracle with
  | [] => (.error .fuelExhausted, st1)
  | outcome :: rest =>
    let st2 := { st1 with oracle := rest }
    match outcome with
    | .timeoutOutcome => (.error .timeoutError, st2)
    | .reply [] => (.error .emptyGetBlockHeadersReply, st2)
    | .reply hs => (.ok hs, st2)

/-- `LightPeerChain.max_consecutive_timeouts`. -/
def max_consecutive_timeouts : Nat := 5

/-- The `for i in range(max_consecutive_timeouts)` retry loop of
`fetch_headers`: attempt the fetch; on `TimeoutError` sleep 0.5 s and
retry; any other exception propagates; after the last attempt raise
`TooManyTimeouts`. -/
def fetchRetryLoop (peer : Peer) (startBlock : Nat) : Nat → SyncSt → Except Err (List BlockHeader) × SyncSt
  | 0, st => (.error .tooManyTimeouts, st)
  | n + 1, st =>
    match fetch_headers_starting_at peer startBlock st with
    | (.error .timeoutError, st') =>
      fetchRetryLoop peer startBlock n { st' with events := st'.events ++ [Ev.sleepMs 500] }
    | r => r

/-- `fetch_headers(start_block, peer)`: refuse to download the genesis
header, then retry `_fetch_headers_starting_at` up to
`max_consecutive_timeouts` times. -/
def fetch_headers (peer : Peer) (startBlock : Nat) (st : SyncSt) :
    Except Err (List BlockHeader) × SyncSt :=
  if startBlock == GENESIS_BLOCK_NUMBER then (.error .validationError, st)
  else fetchRetryLoop peer startBlock max_consecutive_timeouts st

/-- `LastProcessedAnnouncements`: `peer → HeadInfo`, keyed by peer id. -/
abbrev LastProcessed := List (Nat × HeadInfo)

/-- `get_sync_start_block(peer, head_info)`. Reads the canonical head; if
the head is genesis, start just past genesis; else on first contact with
this peer fetch from `max(1, head - max_headers_fetch + 1)`, turn an empty
reply into `LESAnnouncementProcessingError`, persist every returned header
and use the (pre-fetch) head number; else use the last processed
announcement's number minus the announced reorg depth. Finally clamp to at
least `GENESIS_BLOCK_NUMBER + 1`. Subtractions are over `ℤ` as in Python;
the final clamp makes the result a positive `Nat`. -/
def get_sync_start_block (peer : Peer) (lastProcessed : LastProcessed)
    (headInfo : HeadInfo) (st : SyncSt) : Except Err Nat × SyncSt :=
  let chainHead := st.db.head
  if chainHead.blockNumber == GENESIS_BLOCK_NUMBER then
    (.ok (GENESIS_BLOCK_NUMBER + 1), st)
  else
    match lastProcessed.lookup peer.id with
    | none =>
      let oldestAncestorToConsider : Nat :=
        (max ((GENESIS_BLOCK_NUMBER : Int) + 1)
          ((chainHead.blockNumber : Int) - (peer.maxHeadersFetch : Int) + 1)).toNat
      match fetch_headers peer oldestAncestorToConsider st with
      | (.error .emptyGetBlockHeadersReply, st') =>
        (.error .lesAnnouncementProcessingError, st')
      | (.error e, st') => (.error e, st')
      | (.ok headers, st') =>
        let st'' := { st' with db := headers.foldl HeaderDB.persist_header st'.db }
        (.ok (max chainHead.blockNumber (GENESIS_BLOCK_NUMBER + 1)), st'')
    | some lastPeerAnnouncement =>
      (.ok ((max ((lastPeerAnnouncement.blockNumber : Int) - (headInfo.reorgDepth : Int))
        ((GENESIS_BLOCK_NUMBER : Int) + 1)).toNat), st)

/-- `_validate_header(header)`: reject genesis headers; fetch the parent
from the header DB by hash (`HeaderNotFound` when absent); select the VM
rule-set by block number and run `VM.validate_header(header, parent)`
(`ValidationError` on rejection). The VM rules live in the external `evm`
package; the model takes them as the function `vm`, mirroring the
`chain_class` constructor parameter. -/
def validate_header_against_db (vm : Nat → BlockHeader → BlockHeader → Bool)
    (db : HeaderDB) (header : BlockHeader) : Except Err Unit :=
  if header.is_genesis then .error .validationError
  else
    match db.get_block_header_by_hash header.parentHash with
    | none => .error .headerNotFound
    | some parent =>
      if vm header.blockNumber header parent then .ok () else .error .validationError

/-- `_import_headers_from_peer(headers, peer)`: for each header in order,
validate (`ValidationError` becomes `LESAnnouncementProcessingError`; other
exceptions propagate), then persist; return the block number of the last
imported header (`None` for an empty batch). -/
def import_headers_from_peer (vm : Nat → BlockHeader → BlockHeader → Bool) :
    List BlockHeader → Option Nat → SyncSt → Except Err (Option Nat) × SyncSt
  | [], newTip, st => (.ok newTip, st)
  | header :: rest, _, st =>
    match validate_header_against_db vm st.db header with
    | .error .validationError => (.error .lesAnnouncementProcessingError, st)
    | .error e => (.error e, st)
    | .ok () =>
      import_headers_from_peer vm rest (some header.blockNumber)
        { st with db := st.db.persist_header header }

/-- The `while start_block < head_info.block_number` loop of
`process_announcement`, fuelled (the source loop has no bound; `fuel`
exhaustion is a model artifact). Each iteration re-fetches from
`start_block` itself — not `start_block + 1` — and continues from the
imported tip. A `None` tip would make the comparison crash in Python; it
cannot occur since `fetch_headers` never returns an empty list, and the
model maps it to the artifact error. -/
def syncLoop (vm : Nat → BlockHeader → BlockHeader → Bool) (peer : Peer)
    (headInfo : HeadInfo) : Nat → Nat → SyncSt → Except Err Unit × SyncSt
  | 0, _, st => (.error .fuelExhausted, st)
  | fuel + 1, startBlock, st =>
    if startBlock < headInfo.blockNumber then
      match fetch_headers peer startBlock st with
      | (.error e, st') => (.error e, st')
      | (.ok batch, st') =>
        match import_headers_from_peer vm batch none st' with
        | (.error e, st'') => (.error e, st'')
        | (.ok none, st'') => (.error .fuelExhausted, st'')
        | (.ok (some newTip), st'') => syncLoop vm peer headInfo fuel newTip st''
    else (.ok (), st)

/-- `process_announcement(peer, head_info)`: skip when the announced head
is already in the header DB; otherwise compute the start block and run the
fetch loop. -/
def process_announcement (vm : Nat → BlockHeader → BlockHeader → Bool) (peer : Peer)
    (lastProcessed : LastProcessed) (headInfo : HeadInfo) (fuel : Nat) (st : SyncSt) :
    Except Err Unit × SyncSt :=
  if st.db.header_exists headInfo.blockHash then (.ok (), st)
  else
    match get_sync_start_block peer lastProcessed headInfo st with
    | (.error e, st') => (.error e, st')
    | (.ok startBlock, st') => syncLoop vm peer headInfo fuel startBlock st'

/-! ## The announcement processor's error handling (`_process_announcements`) -/

/-- Remove a peer's entry from `LastProcessedAnnouncements`
(`dict.pop(peer, None)`). -/
def lpPop (lp : LastProcessed) (peerId : Nat) : LastProcessed :=
  lp.filter (fun kv => !(kv.1 == peerId))

/-- `self._last_processed_announcements[peer] = head_info` (dict update:
the old binding, if any, is replaced). -/
def lpSet (lp : LastProcessed) (peerId : Nat) (hi : HeadInfo) : LastProcessed :=
  (peerId, hi) :: lpPop lp peerId

/-- `drop_peer(peer)`: pop the peer's `LastProcessedAnnouncements` entry,
then `await peer.cancel()`. -/
def drop_peer (peerId : Nat) (lp : LastProcessed) (st : SyncSt) :
    LastProcessed × SyncSt :=
  (lpPop lp peerId, { st with events := st.events ++ [Ev.cancelPeer peerId] })

/-- `disconnect_peer(peer, reason)`: `peer.disconnect(reason)` then
`drop_peer(peer)`. -/
def disconnect_peer (peerId : Nat) (reason : DisconnectReason)
    (lp : LastProcessed) (st : SyncSt) : LastProcessed × SyncSt :=
  drop_peer peerId lp { st with events := st.events ++ [Ev.disconnect peerId reason] }

/-- Whether the `_process_announcements` worker loop continues after
handling one announcement. -/
inductive ProcOutcome where
  | next
  | halted
  deriving DecidableEq, Repr

/-- One iteration of `_process_announcements` after an announcement has
been dequeued: run `process_announcement` and dispatch on its outcome —
success records the announcement as processed; `OperationCancelled` breaks
the loop; `LESAnnouncementProcessingError` disconnects with
`subprotocol_error`; `TooManyTimeouts` disconnects with `timeout`; any
other exception drops the peer with no disconnect reason. -/
def handle_announcement (vm : Nat → BlockHeader → BlockHeader → Bool) (peer : Peer)
    (headInfo : HeadInfo) (fuel : Nat) (lp : LastProcessed) (st : SyncSt) :
    LastProcessed × SyncSt × ProcOutcome :=
  match process_announcement vm peer lp headInfo fuel st with
  | (.ok (), st') => (lpSet lp peer.id headInfo, st', .next)
  | (.error .operationCancelled, st') => (lp, st', .halted)
  | (.error .lesAnnouncementProcessingError, st') =>
    let r := disconnect_peer peer.id .subprotocol_error lp st'
    (r.1, r.2, .next)
  | (.error .tooManyTimeouts, st') =>
    let r := disconnect_peer peer.id .timeout_reason lp st'
    (r.1, r.2, .next)
  | (.error _, st') =>
    let r := drop_peer peer.id lp st'
    (r.1, r.2, .next)

/-! ## On-demand lookup API -/

/-- The reply-processing tail of `_get_block_header_by_hash(peer,
block_hash)`: empty `headers` raises `HeaderNotFound`; a first header whose
recomputed hash differs from the requested one raises `BadLESResponse`;
otherwise that header is returned. -/
def decode_header_reply (blockHash : Nat) : FetchOutcome → Except Err BlockHeader
  | .timeoutOutcome => .error .timeoutError
  | .reply [] => .error .headerNotFound
  | .reply (h :: _) =>
    if h.hash == blockHash then .ok h else .error .badLESResponse

/-- `_get_block_header_by_hash(peer, block_hash)`: send
`GetBlockHeaders(block_hash, max_headers=1)`, await the reply, and decode
it as above. -/
def get_block_header_by_hash_once (blockHash : Nat) (st : SyncSt) :
    Except Err BlockHeader × SyncSt :=
  let st1 := { st with events := st.events ++ [Ev.sendGetBlockHeadersByHash blockHash 1] }
  match st1.oracle with
  | [] => (.error .fuelExhausted, st1)
  | outcome :: rest => (decode_header_reply blockHash outcome, { st1 with oracle := rest })

/-- A lookup LRU cache of capacity 1024 (`alru_cache(maxsize=1024,
cache_exceptions=False)`), newest entry first. Recency reordering on a hit
is not modelled; eviction keeps the 1024 newest insertions. -/
abbrev HeaderCache := List (Nat × BlockHeader)

/-- `get_block_header_by_hash(block_hash)`: the `alru_cache`-wrapped entry
point. A cached value is returned without contacting the network; on a
miss the underlying call runs, and only a successful result is stored
(`cache_exceptions=False`). -/
def get_block_header_by_hash_cached (cache : HeaderCache) (blockHash : Nat)
    (st : SyncSt) : Except Err BlockHeader × HeaderCache × SyncSt :=
  match cache.lookup blockHash with
  | some h => (.ok h, cache, st)
  | none =>
    match get_block_header_by_hash_once blockHash st with
    | (.ok h, st') => (.ok h, ((blockHash, h) :: cache).take 1024, st')
    | (.error e, st') => (.error e, cache, st')

/-- Modelled from the spec: `keccak` from the external `eth_hash` package
(not under `src/`), used only as an opaque injective map from addresses to
trie keys. -/
def keccak (address : Nat) : Nat :=
  Nat.pair 1 address

/-- `evm.rlp.accounts.Account` (the `evm` package is not under `src/`):
the four account fields per the Ethereum state model. -/
structure Account where
  nonce : Nat
  balance : Nat
  storageRoot : Nat
  codeHash : Nat
  deriving DecidableEq, Repr

/-- Modelled from the spec: the RLP encoding of an `Account` (the `rlp`
package is not under `src/`), modelled as an injective pairing of the
fields. -/
def rlp_encode_account (a : Account) : Nat :=
  Nat.pair a.nonce (Nat.pair a.balance (Nat.pair a.storageRoot a.codeHash))

/-- Modelled from the spec: `rlp.decode(bytes, sedes=Account)`, the
left inverse of `rlp_encode_account`. -/
def rlp_decode_account (n : Nat) : Account :=
  { nonce := n.unpair.1
    balance := n.unpair.2.unpair.1
    storageRoot := n.unpair.2.unpair.2.unpair.1
    codeHash := n.unpair.2.unpair.2.unpair.2 }

/-- Modelled from the spec: `HexaryTrie.get_from_proof(root, key, proof)`
from the external `trie` package (not under `src/`). Per the spec, a
Merkle-Patricia proof is a sequence of trie nodes sufficient to verify a
key/value pair against a known root hash, and proof verification raises on
failure. The model proof for a binding `key ↦ value` under `root` is the
node list `[root, key, value]`; any other shape, or a mismatch with the
queried root or key, fails verification. -/
def trie_get_from_proof (root key : Nat) (proof : List Nat) : Except Err Nat :=
  match proof with
  | [r, k, v] => if r == root && k == key then .ok v else .error .badTrieProof
  | _ => .error .badTrieProof

/-- The well-formed model proof for an account bound at `keccak address`
under a given state root. -/
def validAccountProof (stateRoot address : Nat) (account : Account) : List Nat :=
  [stateRoot, keccak address, rlp_encode_account account]

/-- Outcome of the `GetProofs` round trip of `_get_proof`: a timeout, or
the reply's `proof` node list. -/
inductive ProofOutcome where
  | timeoutOutcome
  | reply (proof : List Nat)
  deriving DecidableEq, Repr

/-- `get_account(block_hash, address)`: fetch a proof for `keccak(address)`
(`_get_proof`), fetch the header for `block_hash`
(`_get_block_header_by_hash`), verify the proof against the header's state
root with `HexaryTrie.get_from_proof`, and RLP-decode the resulting
account. The two replies the peer produces are passed explicitly. -/
def get_account (blockHash address : Nat) (proofR : ProofOutcome)
    (headerR : FetchOutcome) : Except Err Account :=
  let key := keccak address
  match proofR with
  | .timeoutOutcome => .error .timeoutError
  | .reply proof =>
    match decode_header_reply blockHash headerR with
    | .error e => .error e
    | .ok header =>
      match trie_get_from_proof header.stateRoot key proof with
      | .error e => .error e
      | .ok rlpAccount => .ok (rlp_decode_account rlpAccount)

/-! ## The persisted-chain validation invariant (spec invariant 1) -/

/-- Helper for `headerChainValidated`: `prev` is the list of headers
persisted before the ones still to check. -/
def headerChainValidatedAux (vm : Nat → BlockHeader → BlockHeader → Bool)
    (prev : List BlockHeader) : List BlockHeader → Bool
  | [] => true
  | h :: rest =>
    (h.blockNumber == 0
      || prev.any (fun p => p.hash == h.parentHash && vm h.blockNumber h p))
      && headerChainValidatedAux vm (prev ++ [h]) rest

/-- Decidable form of spec invariant 1 over a persist-ordered header list:
every header with block number > 0 is accepted by the VM rules against some
header persisted strictly before it whose hash is its parent hash. -/
def headerChainValidated (vm : Nat → BlockHeader → BlockHeader → Bool)
    (l : List BlockHeader) : Bool :=
  headerChainValidatedAux vm [] l

/-- Batch-fetch request events, for counting fetch attempts. -/
def isSendBatch : Ev → Bool
  | .sendGetBlockHeaders _ _ _ => true
  | _ => false

/-- The events `fetch_headers` emits over `n` consecutive timed-out
attempts: each attempt sends the batch request and then sleeps 0.5 s. -/
def timeoutBlock (peer : Peer) (sb n : Nat) : List Ev :=
  (List.replicate n [Ev.sendGetBlockHeaders sb peer.maxHeadersFetch false,
    Ev.sleepMs 500]).flatten

/-- Whether a validation call succeeded. -/
def isOkUnit : Except Err Unit → Bool
  | .ok () => true
  | .error _ => false

/-- `_import_headers_from_peer` discipline, as a checkable predicate: each
header of the batch is accepted by `_validate_header` against the database
state of its turn, and is then persisted before the next one is checked. -/
def importValidatesB (vm : Nat → BlockHeader → BlockHeader → Bool) :
    HeaderDB → List BlockHeader → Bool
  | _, [] => true
  | db, h :: rest =>
    isOkUnit (validate_header_against_db vm db h)
      && importValidatesB vm (db.persist_header h) rest

/-! # Theorems -/

theorem lookup_cons_pending (k b a : Nat) (es : Pending) :
    ((k, b) :: es).lookup a = if a == k then some b else es.lookup a := by
  by_cases h : a = k
  · simp [List.lookup_cons, h]
  · have hb : (a == k) = false := by simp [h]
    simp [List.lookup_cons, hb]

theorem pendingCount_cons_ne {k : Nat} (b rid : Nat) (es : Pending)
    (hb : (k == rid) = false) :
    pendingCount rid ((k, b) :: es) = pendingCount rid es := by
  simp [pendingCount, List.countP_cons, hb]

theorem pendingCount_cons_self (k b : Nat) (es : Pending) :
    pendingCount k ((k, b) :: es) = pendingCount k es + 1 := by
  simp [pendingCount, List.countP_cons]

theorem eraseKey_cons_hit {k : Nat} (b rid : Nat) (es : Pending)
    (hb : (k == rid) = true) : eraseKey ((k, b) :: es) rid = es := by
  simp [eraseKey, List.eraseP_cons, hb]

theorem eraseKey_cons_miss {k : Nat} (b rid : Nat) (es : Pending)
    (hb : (k == rid) = false) :
    eraseKey ((k, b) :: es) rid = (k, b) :: eraseKey es rid := by
  simp [eraseKey, List.eraseP_cons, hb]

theorem pendingCount_eraseKey_self :
    ∀ (p : Pending) {rid w : Nat}, p.lookup rid = some w →
      pendingCount rid (eraseKey p rid) + 1 = pendingCount rid p
  | [], rid, w, h => by simp [List.lookup] at h
  | (k, b) :: es, rid, w, h => by
    by_cases hk : k = rid
    · subst hk
      rw [eraseKey_cons_hit b k es (by simp), pendingCount_cons_self]
    · have hb : (k == rid) = false := by simp [hk]
      have hb' : (rid == k) = false := by simp [Ne.symm hk]
      have hl : es.lookup rid = some w := by
        rw [lookup_cons_pending] at h
        simpa [hb'] using h
      rw [eraseKey_cons_miss b rid es hb, pendingCount_cons_ne b rid _ hb,
        pendingCount_cons_ne b rid es hb]
      exact pendingCount_eraseKey_self es hl

theorem pendingCount_eraseKey_ne :
    ∀ (p : Pending) (r rid : Nat), ¬ r = rid →
      pendingCount rid (eraseKey p r) = pendingCount rid p
  | [], _, _, _ => rfl
  | (k, b) :: es, r, rid, h => by
    by_cases hk : k = r
    · subst hk
      have hbr : (k == rid) = false := by simp [h]
      rw [eraseKey_cons_hit b k es (by simp), pendingCount_cons_ne b rid es hbr]
    · have hb : (k == r) = false := by simp [hk]
      have ih := pendingCount_eraseKey_ne es r rid h
      rw [eraseKey_cons_miss b r es hb]
      by_cases hkrid : k = rid
      · subst hkrid
        rw [pendingCount_cons_self, pendingCount_cons_self, ih]
      · have hb2 : (k == rid) = false := by simp [hkrid]
        rw [pendingCount_cons_ne b rid _ hb2, pendingCount_cons_ne b rid es hb2, ih]

theorem pstep_measure (rid : Nat) (s : PState) (e : PEvent)
    (hreg : registersId rid e = false) :
    deliveredCount rid (pstep s e) + pendingCount rid (pstep s e).pending
      ≤ deliveredCount rid s + pendingCount rid s.pending := by
  cases e with
  | register r w =>
    have hb : (r == rid) = false := by simpa [registersId] using hreg
    simp [pstep, deliveredCount, pendingCount, List.countP_append, List.countP_cons, hb]
  | timeoutFire w => simp [pstep, deliveredCount, pendingCount]
  | msg rid? =>
    cases rid? with
    | none => simp [pstep]
    | some r =>
      cases hl : s.pending.lookup r with
      | none => simp [pstep, hl]
      | some w =>
        have hdel : deliveredCount rid (pstep s (PEvent.msg (some r)))
            = deliveredCount rid s + (if (r == rid) = true then 1 else 0) := by
          simp [pstep, hl, deliveredCount, List.countP_append, List.countP_cons]
        have hpend : (pstep s (PEvent.msg (some r))).pending = eraseKey s.pending r := by
          simp [pstep, hl]
        rw [hdel, hpend]
        by_cases hr : r = rid
        · subst hr
          have hcount := pendingCount_eraseKey_self s.pending hl
          simp only [beq_self_eq_true, if_true]
          omega
        · have hcount := pendingCount_eraseKey_ne s.pending r rid hr
          have hb : (r == rid) = false := by simp [hr]
          simp [hb, hcount]

theorem prun_measure (rid : Nat) :
    ∀ (tr : List PEvent) (s : PState),
      tr.all (fun e => !registersId rid e) = true →
      deliveredCount rid (prun s tr) + pendingCount rid (prun s tr).pending
        ≤ deliveredCount rid s + pendingCount rid s.pending
  | [], s, _ => le_refl _
  | e :: es, s, h => by
    rw [List.all_cons] at h
    have h1 : registersId rid e = false := by
      have := (Bool.and_eq_true _ _).mp h |>.1
      simpa using this
    have h2 := (Bool.and_eq_true _ _).mp h |>.2
    calc deliveredCount rid (prun (pstep s e) es)
          + pendingCount rid (prun (pstep s e) es).pending
        ≤ deliveredCount rid (pstep s e) + pendingCount rid (pstep s e).pending :=
          prun_measure rid es (pstep s e) h2
      _ ≤ deliveredCount rid s + pendingCount rid s.pending := pstep_measure rid s e h1

/-- C6: for every request id registered in `PendingReplies`, at most one
reply is ever delivered to its waiter: the first message carrying that
`request_id` removes the entry and delivers the decoded payload to the
registered callback; a message whose `request_id` is not a pending key
leaves `PendingReplies` unchanged and is delivered to no waiter; and over
any trace of multiplexer/timeout events that does not re-register the id,
at most one delivery for it ever happens. -/
theorem pending_replies_single_delivery (rid : Nat) :
    (∀ s : PState, s.pending.lookup rid = none → pstep s (PEvent.msg (some rid)) = s) ∧
    (∀ (s : PState) (w : Nat), s.pending.lookup rid = some w →
      (pstep s (PEvent.msg (some rid))).pending = eraseKey s.pending rid ∧
      (pstep s (PEvent.msg (some rid))).delivered = s.delivered ++ [(rid, w)]) ∧
    (∀ (s0 : PState) (tr : List PEvent),
      pendingCount rid s0.pending ≤ 1 →
      deliveredCount rid s0 = 0 →
      tr.all (fun e => !registersId rid e) = true →
      deliveredCount rid (prun s0 tr) ≤ 1) := by
  refine ⟨?_, ?_, ?_⟩
  · intro s h
    simp [pstep, h]
  · intro s w h
    simp [pstep, h]
  · intro s0 tr hpend hdel htr
    have := prun_measure rid tr s0 htr
    omega

/-- Witness for `pending_replies_single_delivery` at concrete inputs. -/
theorem pending_replies_single_delivery_witness :
    (pstep ⟨[], [], []⟩ (PEvent.msg (some 5)) = ⟨[], [], []⟩) ∧
    ((pstep ⟨[(5, 1)], [], []⟩ (PEvent.msg (some 5))).pending = eraseKey [(5, 1)] 5 ∧
      (pstep ⟨[(5, 1)], [], []⟩ (PEvent.msg (some 5))).delivered = [] ++ [(5, 1)]) ∧
    deliveredCount 5 (prun ⟨[(5, 1)], [], []⟩ [PEvent.msg (some 5), PEvent.msg (some 5)]) ≤ 1 :=
  ⟨(pending_replies_single_delivery 5).1 ⟨[], [], []⟩ (by decide),
   (pending_replies_single_delivery 5).2.1 ⟨[(5, 1)], [], []⟩ 1 (by decide),
   (pending_replies_single_delivery 5).2.2 ⟨[(5, 1)], [], []⟩
     [PEvent.msg (some 5), PEvent.msg (some 5)] (by decide) (by decide) (by decide)⟩

/-- C2 counterexample: after a waiter registers request id 7 and its reply
wait times out, the pending-reply slot is still present (the code performs
no cleanup on the timeout path), and a reply arriving after the timeout is
delivered to the registered callback instead of being discarded. -/
theorem wait_for_reply_timeout_cex :
    (prun ⟨[], [], []⟩ [PEvent.register 7 1, PEvent.timeoutFire 1]).pending.lookup 7
      = some 1 ∧
    (prun ⟨[], [], []⟩
      [PEvent.register 7 1, PEvent.timeoutFire 1, PEvent.msg (some 7)]).delivered
      = [(7, 1)] := by
  decide

/-- C2 amended: on timeout the operation fails with a timeout error, but
the pending-reply slot keyed by the request id is NOT removed from
`PendingReplies`; a reply arriving after the timeout is consumed by the
stale registered callback — the slot is removed and the payload delivered
to it at that point — rather than being discarded. -/
theorem wait_for_reply_timeout_slot_remains (s : PState) (rid w : Nat)
    (h : s.pending.lookup rid = some w) :
    (pstep s (PEvent.timeoutFire w)).pending = s.pending ∧
    (pstep s (PEvent.timeoutFire w)).delivered = s.delivered ∧
    (pstep (pstep s (PEvent.timeoutFire w)) (PEvent.msg (some rid))).delivered
      = s.delivered ++ [(rid, w)] ∧
    (pstep (pstep s (PEvent.timeoutFire w)) (PEvent.msg (some rid))).pending
      = eraseKey s.pending rid := by
  simp [pstep, h]

/-- Witness for `wait_for_reply_timeout_slot_remains` at concrete inputs. -/
theorem wait_for_reply_timeout_slot_remains_witness :
    (pstep ⟨[(7, 1)], [], []⟩ (PEvent.timeoutFire 1)).pending = [(7, 1)] ∧
    (pstep ⟨[(7, 1)], [], []⟩ (PEvent.timeoutFire 1)).delivered = [] ∧
    (pstep (pstep ⟨[(7, 1)], [], []⟩ (PEvent.timeoutFire 1))
      (PEvent.msg (some 7))).delivered = [] ++ [(7, 1)] ∧
    (pstep (pstep ⟨[(7, 1)], [], []⟩ (PEvent.timeoutFire 1))
      (PEvent.msg (some 7))).pending = eraseKey [(7, 1)] 7 :=
  wait_for_reply_timeout_slot_remains ⟨[(7, 1)], [], []⟩ 7 1 (by decide)

/-- C5: for every requested hash (on a cache miss), the header lookup
raises `HeaderNotFound` when the reply's headers list is empty; raises
`BadLESResponse` and leaves the LRU cache unpopulated when the first
returned header's recomputed hash differs from the requested hash;
otherwise returns that header; and an exceptional outcome is never stored
in the cache. -/
theorem get_block_header_by_hash_spec (cache : HeaderCache) (blockHash : Nat)
    (st : SyncSt) (hmiss : cache.lookup blockHash = none) :
    (∀ rest, st.oracle = FetchOutcome.reply [] :: rest →
      (get_block_header_by_hash_cached cache blockHash st).1 = .error .headerNotFound ∧
      (get_block_header_by_hash_cached cache blockHash st).2.1 = cache) ∧
    (∀ h t rest, st.oracle = FetchOutcome.reply (h :: t) :: rest →
      (h.hash == blockHash) = false →
      (get_block_header_by_hash_cached cache blockHash st).1 = .error .badLESResponse ∧
      (get_block_header_by_hash_cached cache blockHash st).2.1 = cache) ∧
    (∀ h t rest, st.oracle = FetchOutcome.reply (h :: t) :: rest →
      (h.hash == blockHash) = true →
      (get_block_header_by_hash_cached cache blockHash st).1 = .ok h ∧
      (get_block_header_by_hash_cached cache blockHash st).2.1
        = ((blockHash, h) :: cache).take 1024) ∧
    (∀ e, (get_block_header_by_hash_cached cache blockHash st).1 = .error e →
      (get_block_header_by_hash_cached cache blockHash st).2.1 = cache) := by
  refine ⟨?_, ?_, ?_, ?_⟩
  · intro rest horacle
    simp [get_block_header_by_hash_cached, hmiss, get_block_header_by_hash_once,
      horacle, decode_header_reply]
  · intro h t rest horacle hne
    simp [get_block_header_by_hash_cached, hmiss, get_block_header_by_hash_once,
      horacle, decode_header_reply, hne]
  · intro h t rest horacle heq
    simp [get_block_header_by_hash_cached, hmiss, get_block_header_by_hash_once,
      horacle, decode_header_reply, heq]
  · intro e herr
    rcases hor : st.oracle with _ | ⟨outcome, rest⟩
    · simp [get_block_header_by_hash_cached, hmiss, get_block_header_by_hash_once, hor]
    · cases outcome with
      | timeoutOutcome =>
        simp [get_block_header_by_hash_cached, hmiss, get_block_header_by_hash_once,
          hor, decode_header_reply]
      | reply hs =>
        cases hs with
        | nil =>
          simp [get_block_header_by_hash_cached, hmiss, get_block_header_by_hash_once,
            hor, decode_header_reply]
        | cons h t =>
          by_cases hh : (h.hash == blockHash) = true
          · exfalso
            rw [get_block_header_by_hash_cached] at herr
            simp [hmiss, get_block_header_by_hash_once, hor, decode_header_reply, hh]
              at herr
          · have hh' : (h.hash == blockHash) = false := by
              simpa using hh
            simp [get_block_header_by_hash_cached, hmiss, get_block_header_by_hash_once,
              hor, decode_header_reply, hh']

/-- Witness for `get_block_header_by_hash_spec` at concrete inputs. -/
theorem get_block_header_by_hash_spec_witness :
    ((get_block_header_by_hash_cached [] 999
        ⟨⟨[], ⟨0, 0, 0, 0⟩⟩, [FetchOutcome.reply []], []⟩).1 = .error .headerNotFound ∧
      (get_block_header_by_hash_cached [] 999
        ⟨⟨[], ⟨0, 0, 0, 0⟩⟩, [FetchOutcome.reply []], []⟩).2.1 = []) ∧
    ((get_block_header_by_hash_cached [] 999
        ⟨⟨[], ⟨0, 0, 0, 0⟩⟩, [FetchOutcome.reply [⟨1, 0, 0, 0⟩]], []⟩).1
        = .error .badLESResponse ∧
      (get_block_header_by_hash_cached [] 999
        ⟨⟨[], ⟨0, 0, 0, 0⟩⟩, [FetchOutcome.reply [⟨1, 0, 0, 0⟩]], []⟩).2.1 = []) ∧
    ((get_block_header_by_hash_cached [] (BlockHeader.hash ⟨1, 0, 0, 0⟩)
        ⟨⟨[], ⟨0, 0, 0, 0⟩⟩, [FetchOutcome.reply [⟨1, 0, 0, 0⟩]], []⟩).1
        = .ok ⟨1, 0, 0, 0⟩ ∧
      (get_block_header_by_hash_cached [] (BlockHeader.hash ⟨1, 0, 0, 0⟩)
        ⟨⟨[], ⟨0, 0, 0, 0⟩⟩, [FetchOutcome.reply [⟨1, 0, 0, 0⟩]], []⟩).2.1
        = ((BlockHeader.hash ⟨1, 0, 0, 0⟩, ⟨1, 0, 0, 0⟩) :: []).take 1024) ∧
    (get_block_header_by_hash_cached [] 999
        ⟨⟨[], ⟨0, 0, 0, 0⟩⟩, [FetchOutcome.reply []], []⟩).2.1 = [] :=
  ⟨(get_block_header_by_hash_spec [] 999 _ rfl).1 [] rfl,
   (get_block_header_by_hash_spec [] 999 _ rfl).2.1 ⟨1, 0, 0, 0⟩ [] [] rfl rfl,
   (get_block_header_by_hash_spec [] (BlockHeader.hash ⟨1, 0, 0, 0⟩) _ rfl).2.2.1
     ⟨1, 0, 0, 0⟩ [] [] rfl rfl,
   (get_block_header_by_hash_spec [] 999 _ rfl).2.2.2 Err.headerNotFound rfl⟩

theorem rlp_decode_encode_account (a : Account) :
    rlp_decode_account (rlp_encode_account a) = a := by
  simp [rlp_decode_account, rlp_encode_account, Nat.unpair_pair]

/-- C8: `get_account` verifies the peer's Merkle proof by computing
`trie_get_from_proof(header.state_root, keccak(address), proof)` on the
header fetched for the given block hash: a valid proof for the pair
`(address, account)` under the header's state root makes the call return
exactly that account; a successful verification returns the RLP-decoded
value; and a proof failing verification makes the call raise. -/
theorem get_account_spec (blockHash address : Nat) (header : BlockHeader)
    (t : List BlockHeader) (hhash : (header.hash == blockHash) = true) :
    (∀ account : Account,
      get_account blockHash address
        (ProofOutcome.reply (validAccountProof header.stateRoot address account))
        (FetchOutcome.reply (header :: t)) = .ok account) ∧
    (∀ (proof : List Nat) (v : Nat),
      trie_get_from_proof header.stateRoot (keccak address) proof = .ok v →
      get_account blockHash address (ProofOutcome.reply proof)
        (FetchOutcome.reply (header :: t)) = .ok (rlp_decode_account v)) ∧
    (∀ (proof : List Nat) (e : Err),
      trie_get_from_proof header.stateRoot (keccak address) proof = .error e →
      get_account blockHash address (ProofOutcome.reply proof)
        (FetchOutcome.reply (header :: t)) = .error e) := by
  refine ⟨?_, ?_, ?_⟩
  · intro account
    simp [get_account, decode_header_reply, hhash, validAccountProof,
      trie_get_from_proof, rlp_decode_encode_account]
  · intro proof v hproof
    simp [get_account, decode_header_reply, hhash, hproof]
  · intro proof e hproof
    simp [get_account, decode_header_reply, hhash, hproof]

/-- Witness for `get_account_spec` at concrete inputs. -/
theorem get_account_spec_witness :
    (get_account (BlockHeader.hash ⟨1, 0, 5, 0⟩) 3
      (ProofOutcome.reply (validAccountProof 5 3 ⟨1, 2, 3, 4⟩))
      (FetchOutcome.reply [⟨1, 0, 5, 0⟩]) = .ok ⟨1, 2, 3, 4⟩) ∧
    (get_account (BlockHeader.hash ⟨1, 0, 5, 0⟩) 3
      (ProofOutcome.reply (validAccountProof 5 3 ⟨1, 2, 3, 4⟩))
      (FetchOutcome.reply [⟨1, 0, 5, 0⟩])
      = .ok (rlp_decode_account (rlp_encode_account ⟨1, 2, 3, 4⟩))) ∧
    (get_account (BlockHeader.hash ⟨1, 0, 5, 0⟩) 3 (ProofOutcome.reply [])
      (FetchOutcome.reply [⟨1, 0, 5, 0⟩]) = .error Err.badTrieProof) :=
  ⟨(get_account_spec (BlockHeader.hash ⟨1, 0, 5, 0⟩) 3 ⟨1, 0, 5, 0⟩ [] rfl).1
      ⟨1, 2, 3, 4⟩,
   (get_account_spec (BlockHeader.hash ⟨1, 0, 5, 0⟩) 3 ⟨1, 0, 5, 0⟩ [] rfl).2.1
      (validAccountProof 5 3 ⟨1, 2, 3, 4⟩) (rlp_encode_account ⟨1, 2, 3, 4⟩) rfl,
   (get_account_spec (BlockHeader.hash ⟨1, 0, 5, 0⟩) 3 ⟨1, 0, 5, 0⟩ [] rfl).2.2
      [] Err.badTrieProof rfl⟩

/-- C9: when the header database already contains a header whose hash
equals `head_info.block_hash`, `process_announcement` returns immediately
with the whole sync state (database, oracle, event log — hence no request
sent) unchanged, and the processor records the announcement as processed
on this successful return. `PendingReplies` is a separate component the
synchronizer never touches. -/
theorem process_announcement_skip_if_known (vm : Nat → BlockHeader → BlockHeader → Bool)
    (peer : Peer) (lp : LastProcessed) (headInfo : HeadInfo) (fuel : Nat) (st : SyncSt)
    (hknown : st.db.header_exists headInfo.blockHash = true) :
    process_announcement vm peer lp headInfo fuel st = (.ok (), st) ∧
    handle_announcement vm peer headInfo fuel lp st
      = (lpSet lp peer.id headInfo, st, .next) := by
  have h1 : process_announcement vm peer lp headInfo fuel st = (.ok (), st) := by
    simp [process_announcement, hknown]
  exact ⟨h1, by simp [handle_announcement, h1]⟩

/-- Witness for `process_announcement_skip_if_known` at concrete inputs. -/
theorem process_announcement_skip_if_known_witness :
    process_announcement (fun _ _ _ => true) ⟨1, 10⟩ [] ⟨0, 7, 0, 0⟩ 0
      ⟨⟨[⟨0, 0, 0, 0⟩], ⟨0, 0, 0, 0⟩⟩, [], []⟩
      = (.ok (), ⟨⟨[⟨0, 0, 0, 0⟩], ⟨0, 0, 0, 0⟩⟩, [], []⟩) ∧
    handle_announcement (fun _ _ _ => true) ⟨1, 10⟩ ⟨0, 7, 0, 0⟩ 0 []
      ⟨⟨[⟨0, 0, 0, 0⟩], ⟨0, 0, 0, 0⟩⟩, [], []⟩
      = (lpSet [] 1 ⟨0, 7, 0, 0⟩, ⟨⟨[⟨0, 0, 0, 0⟩], ⟨0, 0, 0, 0⟩⟩, [], []⟩, .next) :=
  process_announcement_skip_if_known (fun _ _ _ => true) ⟨1, 10⟩ [] ⟨0, 7, 0, 0⟩ 0
    ⟨⟨[⟨0, 0, 0, 0⟩], ⟨0, 0, 0, 0⟩⟩, [], []⟩ (by decide)

theorem fetch_headers_starting_at_events (peer : Peer) (sb : Nat) (st : SyncSt) :
    (fetch_headers_starting_at peer sb st).2.events
      = st.events ++ [Ev.sendGetBlockHeaders sb peer.maxHeadersFetch false] := by
  rcases st with ⟨db, oracle, events⟩
  rcases oracle with _ | ⟨outcome, rest⟩
  · simp [fetch_headers_starting_at]
  · cases outcome with
    | timeoutOutcome => simp [fetch_headers_starting_at]
    | reply hs => cases hs <;> simp [fetch_headers_starting_at]

theorem fetchRetryLoop_all_timeouts (peer : Peer) (sb : Nat) :
    ∀ (n : Nat) (st : SyncSt) (rest : List FetchOutcome),
      st.oracle = List.replicate n FetchOutcome.timeoutOutcome ++ rest →
      fetchRetryLoop peer sb n st
        = (.error .tooManyTimeouts,
           { st with oracle := rest, events := st.events ++ timeoutBlock peer sb n })
  | 0, st, rest, h => by
    rcases st with ⟨db, oracle, events⟩
    simp at h
    simp [fetchRetryLoop, timeoutBlock, h]
  | n + 1, st, rest, h => by
    rcases st with ⟨db, oracle, events⟩
    simp only [List.replicate_succ, List.cons_append] at h
    subst h
    have ih := fetchRetryLoop_all_timeouts peer sb n
      ⟨db, List.replicate n FetchOutcome.timeoutOutcome ++ rest,
        events ++ [Ev.sendGetBlockHeaders sb peer.maxHeadersFetch false, Ev.sleepMs 500]⟩
      rest rfl
    simp only [fetchRetryLoop, fetch_headers_starting_at]
    simp [ih, timeoutBlock, List.replicate_succ]

theorem fetchRetryLoop_sends_le (peer : Peer) (sb : Nat) :
    ∀ (n : Nat) (st : SyncSt),
      ((fetchRetryLoop peer sb n st).2.events.countP isSendBatch)
        ≤ st.events.countP isSendBatch + n
  | 0, st => by simp [fetchRetryLoop]
  | n + 1, st => by
    have hev := fetch_headers_starting_at_events peer sb st
    rcases hfsa : fetch_headers_starting_at peer sb st with ⟨res, st'⟩
    rw [hfsa] at hev
    simp only at hev
    have hcount : st'.events.countP isSendBatch = st.events.countP isSendBatch + 1 := by
      simp [hev, List.countP_append, isSendBatch]
    rw [fetchRetryLoop, hfsa]
    rcases res with e | hs
    · cases e
      case timeoutError =>
        have ih := fetchRetryLoop_sends_le peer sb n
          { st' with events := st'.events ++ [Ev.sleepMs 500] }
        have h2 : ({ st' with events := st'.events ++ [Ev.sleepMs 500] } : SyncSt).events.countP
            isSendBatch = st.events.countP isSendBatch + 1 := by
          simp [List.countP_append, isSendBatch, hcount]
        rw [h2] at ih
        show (fetchRetryLoop peer sb n
          { st' with events := st'.events ++ [Ev.sleepMs 500] }).2.events.countP isSendBatch
          ≤ st.events.countP isSendBatch + (n + 1)
        omega
      all_goals
        show st'.events.countP isSendBatch ≤ st.events.countP isSendBatch + (n + 1)
      all_goals omega
    · show st'.events.countP isSendBatch ≤ st.events.countP isSendBatch + (n + 1)
      omega

/-- C7: `fetch_headers` performs at most `max_consecutive_timeouts = 5`
batch-fetch attempts; when the first five round trips all time out it
sends the request and then sleeps 0.5 s five times over and raises
`TooManyTimeouts`; and the announcement processor converts
`TooManyTimeouts` into disconnecting the peer with reason `timeout`. -/
theorem fetch_headers_retry_spec (peer : Peer) (startBlock : Nat) :
    (∀ (st : SyncSt) (rest : List FetchOutcome),
      (startBlock == GENESIS_BLOCK_NUMBER) = false →
      st.oracle
        = List.replicate max_consecutive_timeouts FetchOutcome.timeoutOutcome ++ rest →
      fetch_headers peer startBlock st
        = (.error .tooManyTimeouts,
           { st with
               oracle := rest
               events := st.events
                 ++ timeoutBlock peer startBlock max_consecutive_timeouts })) ∧
    (∀ st : SyncSt,
      (fetch_headers peer startBlock st).2.events.countP isSendBatch
        ≤ st.events.countP isSendBatch + max_consecutive_timeouts) ∧
    (∀ (vm : Nat → BlockHeader → BlockHeader → Bool) (headInfo : HeadInfo)
        (fuel : Nat) (lp : LastProcessed) (st st' : SyncSt),
      process_announcement vm peer lp headInfo fuel st
        = (.error .tooManyTimeouts, st') →
      handle_announcement vm peer headInfo fuel lp st
        = (lpPop lp peer.id,
           { st' with events := st'.events
               ++ [Ev.disconnect peer.id DisconnectReason.timeout_reason,
                   Ev.cancelPeer peer.id] }, .next)) := by
  refine ⟨?_, ?_, ?_⟩
  · intro st rest hsb horacle
    rw [fetch_headers]
    simp only [hsb, Bool.false_eq_true, if_false]
    exact fetchRetryLoop_all_timeouts peer startBlock max_consecutive_timeouts st rest horacle
  · intro st
    rw [fetch_headers]
    by_cases hsb : (startBlock == GENESIS_BLOCK_NUMBER) = true
    · simp [hsb]
    · have hsb' : (startBlock == GENESIS_BLOCK_NUMBER) = false := by simpa using hsb
      simp only [hsb', Bool.false_eq_true, if_false]
      exact fetchRetryLoop_sends_le peer startBlock max_consecutive_timeouts st
  · intro vm headInfo fuel lp st st' h
    simp [handle_announcement, h, disconnect_peer, drop_peer]

/-- Witness for `fetch_headers_retry_spec` at concrete inputs. -/
theorem fetch_headers_retry_spec_witness :
    (fetch_headers ⟨1, 10⟩ 3
      ⟨⟨[], ⟨0, 0, 0, 0⟩⟩, List.replicate 5 FetchOutcome.timeoutOutcome ++ [], []⟩
      = (.error .tooManyTimeouts,
         ⟨⟨[], ⟨0, 0, 0, 0⟩⟩, [], [] ++ timeoutBlock ⟨1, 10⟩ 3 5⟩)) ∧
    ((fetch_headers ⟨1, 10⟩ 3
      ⟨⟨[], ⟨0, 0, 0, 0⟩⟩, [], []⟩).2.events.countP isSendBatch
      ≤ ([] : List Ev).countP isSendBatch + 5) ∧
    (handle_announcement (fun _ _ _ => true) ⟨1, 10⟩ ⟨999, 5, 0, 0⟩ 1 []
      ⟨⟨[⟨0, 0, 0, 0⟩], ⟨0, 0, 0, 0⟩⟩, List.replicate 5 FetchOutcome.timeoutOutcome, []⟩
      = (lpPop [] 1,
         ⟨⟨[⟨0, 0, 0, 0⟩], ⟨0, 0, 0, 0⟩⟩, [],
          timeoutBlock ⟨1, 10⟩ 1 5
            ++ [Ev.disconnect 1 DisconnectReason.timeout_reason, Ev.cancelPeer 1]⟩,
         .next)) := by
  refine ⟨?_, ?_, ?_⟩
  · exact (fetch_headers_retry_spec ⟨1, 10⟩ 3).1
      ⟨⟨[], ⟨0, 0, 0, 0⟩⟩, List.replicate 5 FetchOutcome.timeoutOutcome ++ [], []⟩
      [] rfl rfl
  · exact (fetch_headers_retry_spec ⟨1, 10⟩ 3).2.1 ⟨⟨[], ⟨0, 0, 0, 0⟩⟩, [], []⟩
  · exact (fetch_headers_retry_spec ⟨1, 10⟩ 1).2.2 (fun _ _ _ => true) ⟨999, 5, 0, 0⟩ 1 []
      ⟨⟨[⟨0, 0, 0, 0⟩], ⟨0, 0, 0, 0⟩⟩, List.replicate 5 FetchOutcome.timeoutOutcome, []⟩
      ⟨⟨[⟨0, 0, 0, 0⟩], ⟨0, 0, 0, 0⟩⟩, [], timeoutBlock ⟨1, 10⟩ 1 5⟩ rfl

theorem toNat_max_one_ne_zero (x : Int) : (max 1 x).toNat ≠ 0 := by
  have h := le_max_left 1 x
  omega

theorem fetchRetryLoop_reply_step (peer : Peer) (sb n : Nat) (st : SyncSt)
    (h : BlockHeader) (hs : List BlockHeader) (rest : List FetchOutcome)
    (horacle : st.oracle = FetchOutcome.reply (h :: hs) :: rest) :
    fetchRetryLoop peer sb (n + 1) st
      = (.ok (h :: hs),
         { st with
             oracle := rest
             events := st.events
               ++ [Ev.sendGetBlockHeaders sb peer.maxHeadersFetch false] }) := by
  rcases st with ⟨db, oracle, events⟩
  simp only at horacle
  subst horacle
  rw [fetchRetryLoop]
  simp [fetch_headers_starting_at]

theorem fetchRetryLoop_empty_step (peer : Peer) (sb n : Nat) (st : SyncSt)
    (rest : List FetchOutcome)
    (horacle : st.oracle = FetchOutcome.reply [] :: rest) :
    fetchRetryLoop peer sb (n + 1) st
      = (.error .emptyGetBlockHeadersReply,
         { st with
             oracle := rest
             events := st.events
               ++ [Ev.sendGetBlockHeaders sb peer.maxHeadersFetch false] }) := by
  rcases st with ⟨db, oracle, events⟩
  simp only at horacle
  subst horacle
  rw [fetchRetryLoop]
  simp [fetch_headers_starting_at]

theorem fetch_headers_first_reply (peer : Peer) (sb : Nat) (st : SyncSt)
    (h : BlockHeader) (hs : List BlockHeader) (rest : List FetchOutcome)
    (hsb : sb ≠ 0) (horacle : st.oracle = FetchOutcome.reply (h :: hs) :: rest) :
    fetch_headers peer sb st
      = (.ok (h :: hs),
         { st with
             oracle := rest
             events := st.events
               ++ [Ev.sendGetBlockHeaders sb peer.maxHeadersFetch false] }) := by
  have hb : (sb == GENESIS_BLOCK_NUMBER) = false := by
    simp [GENESIS_BLOCK_NUMBER, hsb]
  rw [fetch_headers]
  simp only [hb, Bool.false_eq_true, if_false]
  exact fetchRetryLoop_reply_step peer sb 4 st h hs rest horacle

theorem fetch_headers_first_empty (peer : Peer) (sb : Nat) (st : SyncSt)
    (rest : List FetchOutcome)
    (hsb : sb ≠ 0) (horacle : st.oracle = FetchOutcome.reply [] :: rest) :
    fetch_headers peer sb st
      = (.error .emptyGetBlockHeadersReply,
         { st with
             oracle := rest
             events := st.events
               ++ [Ev.sendGetBlockHeaders sb peer.maxHeadersFetch false] }) := by
  have hb : (sb == GENESIS_BLOCK_NUMBER) = false := by
    simp [GENESIS_BLOCK_NUMBER, hsb]
  rw [fetch_headers]
  simp only [hb, Bool.false_eq_true, if_false]
  exact fetchRetryLoop_empty_step peer sb 4 st rest horacle

/-- C3: `get_sync_start_block` returns 1 when the canonical head is
genesis; on first contact with a peer it fetches from
`max(1, chain_head.block_number - peer.max_headers_fetch + 1)`, persists
every returned header in order and returns
`max(chain_head.block_number, 1)`, failing with
`LESAnnouncementProcessingError` ("no common ancestors") when that fetch
reply is empty; otherwise it returns
`max(last_processed[peer].block_number - head_info.reorg_depth, 1)`. -/
theorem get_sync_start_block_spec (peer : Peer) (lp : LastProcessed)
    (headInfo : HeadInfo) :
    (∀ st : SyncSt, st.db.head.blockNumber = 0 →
      get_sync_start_block peer lp headInfo st = (.ok 1, st)) ∧
    (∀ (st : SyncSt) (h : BlockHeader) (hs : List BlockHeader)
        (rest : List FetchOutcome),
      st.db.head.blockNumber ≠ 0 →
      lp.lookup peer.id = none →
      st.oracle = FetchOutcome.reply (h :: hs) :: rest →
      get_sync_start_block peer lp headInfo st
        = (.ok (max st.db.head.blockNumber 1),
           { st with
               db := (h :: hs).foldl HeaderDB.persist_header st.db
               oracle := rest
               events := st.events ++ [Ev.sendGetBlockHeaders
                 ((max 1 ((st.db.head.blockNumber : Int)
                   - (peer.maxHeadersFetch : Int) + 1)).toNat)
                 peer.maxHeadersFetch false] })) ∧
    (∀ (st : SyncSt) (rest : List FetchOutcome),
      st.db.head.blockNumber ≠ 0 →
      lp.lookup peer.id = none →
      st.oracle = FetchOutcome.reply [] :: rest →
      get_sync_start_block peer lp headInfo st
        = (.error .lesAnnouncementProcessingError,
           { st with
               oracle := rest
               events := st.events ++ [Ev.sendGetBlockHeaders
                 ((max 1 ((st.db.head.blockNumber : Int)
                   - (peer.maxHeadersFetch : Int) + 1)).toNat)
                 peer.maxHeadersFetch false] })) ∧
    (∀ (st : SyncSt) (last : HeadInfo),
      st.db.head.blockNumber ≠ 0 →
      lp.lookup peer.id = some last →
      get_sync_start_block peer lp headInfo st
        = (.ok ((max ((last.blockNumber : Int) - (headInfo.reorgDepth : Int))
            1).toNat), st)) := by
  refine ⟨?_, ?_, ?_, ?_⟩
  · intro st h0
    rw [get_sync_start_block]
    simp [GENESIS_BLOCK_NUMBER, h0]
  · intro st h hs rest hne hlast horacle
    have hbeq : (st.db.head.blockNumber == GENESIS_BLOCK_NUMBER) = false := by
      simp [GENESIS_BLOCK_NUMBER, hne]
    have hfetch := fetch_headers_first_reply peer
      ((max ((GENESIS_BLOCK_NUMBER : Int) + 1)
        ((st.db.head.blockNumber : Int) - (peer.maxHeadersFetch : Int) + 1)).toNat)
      st h hs rest (toNat_max_one_ne_zero ((st.db.head.blockNumber : Int)
          - (peer.maxHeadersFetch : Int) + 1)) horacle
    rw [get_sync_start_block]
    simp only [hbeq, Bool.false_eq_true, if_false, hlast]
    rw [hfetch]
    simp [GENESIS_BLOCK_NUMBER]
  · intro st rest hne hlast horacle
    have hbeq : (st.db.head.blockNumber == GENESIS_BLOCK_NUMBER) = false := by
      simp [GENESIS_BLOCK_NUMBER, hne]
    have hfetch := fetch_headers_first_empty peer
      ((max ((GENESIS_BLOCK_NUMBER : Int) + 1)
        ((st.db.head.blockNumber : Int) - (peer.maxHeadersFetch : Int) + 1)).toNat)
      st rest (toNat_max_one_ne_zero ((st.db.head.blockNumber : Int)
          - (peer.maxHeadersFetch : Int) + 1)) horacle
    rw [get_sync_start_block]
    simp only [hbeq, Bool.false_eq_true, if_false, hlast]
    rw [hfetch]
    simp [GENESIS_BLOCK_NUMBER]
  · intro st last hne hlast
    have hbeq : (st.db.head.blockNumber == GENESIS_BLOCK_NUMBER) = false := by
      simp [GENESIS_BLOCK_NUMBER, hne]
    rw [get_sync_start_block]
    simp only [hbeq, Bool.false_eq_true, if_false, hlast]
    simp [GENESIS_BLOCK_NUMBER]

/-- Witness for `get_sync_start_block_spec` at concrete inputs. -/
theorem get_sync_start_block_spec_witness :
    (get_sync_start_block ⟨1, 10⟩ [] ⟨9, 9, 0, 0⟩
        ⟨⟨[⟨0, 0, 0, 0⟩], ⟨0, 0, 0, 0⟩⟩, [], []⟩
      = (.ok 1, ⟨⟨[⟨0, 0, 0, 0⟩], ⟨0, 0, 0, 0⟩⟩, [], []⟩)) ∧
    (get_sync_start_block ⟨1, 10⟩ [] ⟨9, 9, 0, 0⟩
        ⟨⟨[⟨0, 0, 0, 0⟩, ⟨1, 0, 0, 0⟩], ⟨1, 0, 0, 0⟩⟩,
          [FetchOutcome.reply [⟨2, 0, 0, 1⟩]], []⟩
      = (.ok 1, ⟨⟨[⟨0, 0, 0, 0⟩, ⟨1, 0, 0, 0⟩, ⟨2, 0, 0, 1⟩], ⟨1, 0, 0, 0⟩⟩, [],
          [Ev.sendGetBlockHeaders 1 10 false]⟩)) ∧
    (get_sync_start_block ⟨1, 10⟩ [] ⟨9, 9, 0, 0⟩
        ⟨⟨[⟨0, 0, 0, 0⟩, ⟨1, 0, 0, 0⟩], ⟨1, 0, 0, 0⟩⟩, [FetchOutcome.reply []], []⟩
      = (.error .lesAnnouncementProcessingError,
         ⟨⟨[⟨0, 0, 0, 0⟩, ⟨1, 0, 0, 0⟩], ⟨1, 0, 0, 0⟩⟩, [],
          [Ev.sendGetBlockHeaders 1 10 false]⟩)) ∧
    (get_sync_start_block ⟨1, 10⟩ [(1, ⟨7, 7, 0, 0⟩)] ⟨9, 9, 0, 3⟩
        ⟨⟨[⟨0, 0, 0, 0⟩, ⟨1, 0, 0, 0⟩], ⟨1, 0, 0, 0⟩⟩, [], []⟩
      = (.ok 4, ⟨⟨[⟨0, 0, 0, 0⟩, ⟨1, 0, 0, 0⟩], ⟨1, 0, 0, 0⟩⟩, [], []⟩)) :=
  ⟨(get_sync_start_block_spec ⟨1, 10⟩ [] ⟨9, 9, 0, 0⟩).1
      ⟨⟨[⟨0, 0, 0, 0⟩], ⟨0, 0, 0, 0⟩⟩, [], []⟩ rfl,
   (get_sync_start_block_spec ⟨1, 10⟩ [] ⟨9, 9, 0, 0⟩).2.1
      ⟨⟨[⟨0, 0, 0, 0⟩, ⟨1, 0, 0, 0⟩], ⟨1, 0, 0, 0⟩⟩,
        [FetchOutcome.reply [⟨2, 0, 0, 1⟩]], []⟩
      ⟨2, 0, 0, 1⟩ [] [] (by decide) rfl rfl,
   (get_sync_start_block_spec ⟨1, 10⟩ [] ⟨9, 9, 0, 0⟩).2.2.1
      ⟨⟨[⟨0, 0, 0, 0⟩, ⟨1, 0, 0, 0⟩], ⟨1, 0, 0, 0⟩⟩, [FetchOutcome.reply []], []⟩
      [] (by decide) rfl rfl,
   (get_sync_start_block_spec ⟨1, 10⟩ [(1, ⟨7, 7, 0, 0⟩)] ⟨9, 9, 0, 3⟩).2.2.2
      ⟨⟨[⟨0, 0, 0, 0⟩, ⟨1, 0, 0, 0⟩], ⟨1, 0, 0, 0⟩⟩, [], []⟩
      ⟨7, 7, 0, 0⟩ (by decide) rfl⟩

theorem import_headers_frame (vm : Nat → BlockHeader → BlockHeader → Bool) :
    ∀ (batch : List BlockHeader) (tip : Option Nat) (st : SyncSt),
      (import_headers_from_peer vm batch tip st).2.events = st.events ∧
      (import_headers_from_peer vm batch tip st).2.oracle = st.oracle ∧
      (import_headers_from_peer vm batch tip st).2.db.head = st.db.head
  | [], _, _ => ⟨rfl, rfl, rfl⟩
  | h0 :: rest, tip, st => by
    rw [import_headers_from_peer]
    cases hv : validate_header_against_db vm st.db h0 with
    | error e => cases e <;> exact ⟨rfl, rfl, rfl⟩
    | ok u =>
      cases u
      exact import_headers_frame vm rest (some h0.blockNumber)
        { st with db := st.db.persist_header h0 }

theorem import_headers_ok (vm : Nat → BlockHeader → BlockHeader → Bool) :
    ∀ (batch : List BlockHeader) (tip : Option Nat) (st st' : SyncSt) (r : Option Nat),
      import_headers_from_peer vm batch tip st = (.ok r, st') →
      importValidatesB vm st.db batch = true ∧
      st'.db.persisted = st.db.persisted ++ batch ∧
      (batch = [] → r = tip) ∧
      (∀ b : BlockHeader, batch.getLast? = some b → r = some b.blockNumber)
  | [], tip, st, st', r, h => by
    rw [import_headers_from_peer] at h
    obtain ⟨h1, h2⟩ := Prod.mk.inj h
    obtain rfl : tip = r := by
      injection h1
    subst h2
    refine ⟨rfl, by simp, fun _ => rfl, fun b hb => by simp at hb⟩
  | h0 :: rest, tip, st, st', r, h => by
    rw [import_headers_from_peer] at h
    cases hv : validate_header_against_db vm st.db h0 with
    | error e =>
      rw [hv] at h
      cases e <;> simp at h
    | ok u =>
      cases u
      rw [hv] at h
      have ih := import_headers_ok vm rest (some h0.blockNumber)
        { st with db := st.db.persist_header h0 } st' r h
      refine ⟨?_, ?_, ?_, ?_⟩
      · rw [importValidatesB, hv]
        simpa [isOkUnit] using ih.1
      · have := ih.2.1
        simpa [HeaderDB.persist_header, List.append_assoc] using this
      · intro hc
        exact absurd hc (by simp)
      · intro b hb
        cases rest with
        | nil =>
          have hb' : h0 = b := by simpa using hb
          subst hb'
          exact ih.2.2.1 rfl
        | cons r1 rs =>
          rw [List.getLast?_cons_cons] at hb
          exact ih.2.2.2 b hb

theorem fetchRetryLoop_events_mono (peer : Peer) (sb : Nat) :
    ∀ (n : Nat) (st : SyncSt), ∃ d, (fetchRetryLoop peer sb n st).2.events = st.events ++ d
  | 0, st => ⟨[], by simp [fetchRetryLoop]⟩
  | n + 1, st => by
    have hev := fetch_headers_starting_at_events peer sb st
    rcases hfsa : fetch_headers_starting_at peer sb st with ⟨res, st'⟩
    rw [hfsa] at hev
    simp only at hev
    rw [fetchRetryLoop, hfsa]
    rcases res with e | hs
    · cases e
      case timeoutError =>
        obtain ⟨d, hd⟩ := fetchRetryLoop_events_mono peer sb n
          { st' with events := st'.events ++ [Ev.sleepMs 500] }
        refine ⟨[Ev.sendGetBlockHeaders sb peer.maxHeadersFetch false, Ev.sleepMs 500]
          ++ d, ?_⟩
        simp only at hd
        rw [hd, hev]
        simp
      all_goals
        exact ⟨[Ev.sendGetBlockHeaders sb peer.maxHeadersFetch false], hev⟩
    · exact ⟨[Ev.sendGetBlockHeaders sb peer.maxHeadersFetch false], hev⟩

theorem fetchRetryLoop_events_prefix (peer : Peer) (sb : Nat) (n : Nat) (st : SyncSt) :
    ∃ d, (fetchRetryLoop peer sb (n + 1) st).2.events
      = st.events ++ Ev.sendGetBlockHeaders sb peer.maxHeadersFetch false :: d := by
  have hev := fetch_headers_starting_at_events peer sb st
  rcases hfsa : fetch_headers_starting_at peer sb st with ⟨res, st'⟩
  rw [hfsa] at hev
  simp only at hev
  rw [fetchRetryLoop, hfsa]
  rcases res with e | hs
  · cases e
    case timeoutError =>
      obtain ⟨d, hd⟩ := fetchRetryLoop_events_mono peer sb n
        { st' with events := st'.events ++ [Ev.sleepMs 500] }
      refine ⟨Ev.sleepMs 500 :: d, ?_⟩
      simp only at hd
      rw [hd, hev]
      simp
    all_goals exact ⟨[], by simp [hev]⟩
  · exact ⟨[], by simp [hev]⟩

theorem fetch_headers_events_mono (peer : Peer) (sb : Nat) (st : SyncSt) :
    ∃ d, (fetch_headers peer sb st).2.events = st.events ++ d := by
  rw [fetch_headers]
  by_cases hb : (sb == GENESIS_BLOCK_NUMBER) = true
  · simp only [hb, if_true]
    exact ⟨[], by simp⟩
  · have hb' : (sb == GENESIS_BLOCK_NUMBER) = false := by simpa using hb
    simp only [hb', Bool.false_eq_true, if_false]
    exact fetchRetryLoop_events_mono peer sb max_consecutive_timeouts st

theorem fetch_headers_events_prefix (peer : Peer) (sb : Nat) (st : SyncSt)
    (hsb : sb ≠ 0) :
    ∃ d, (fetch_headers peer sb st).2.events
      = st.events ++ Ev.sendGetBlockHeaders sb peer.maxHeadersFetch false :: d := by
  have hb : (sb == GENESIS_BLOCK_NUMBER) = false := by
    simp [GENESIS_BLOCK_NUMBER, hsb]
  rw [fetch_headers]
  simp only [hb, Bool.false_eq_true, if_false]
  exact fetchRetryLoop_events_prefix peer sb 4 st

theorem syncLoop_events_mono (vm : Nat → BlockHeader → BlockHeader → Bool)
    (peer : Peer) (headInfo : HeadInfo) :
    ∀ (fuel sb : Nat) (st : SyncSt), ∃ d,
      (syncLoop vm peer headInfo fuel sb st).2.events = st.events ++ d
  | 0, sb, st => ⟨[], by simp [syncLoop]⟩
  | fuel + 1, sb, st => by
    rw [syncLoop]
    by_cases hlt : sb < headInfo.blockNumber
    · simp only [hlt, if_true]
      obtain ⟨d0, hd0⟩ := fetch_headers_events_mono peer sb st
      rcases hf : fetch_headers peer sb st with ⟨res, st1⟩
      rw [hf] at hd0
      simp only at hd0
      rcases res with e | batch
      · exact ⟨d0, hd0⟩
      · have hfr := import_headers_frame vm batch none st1
        rcases him : import_headers_from_peer vm batch none st1 with ⟨res2, st2⟩
        rw [him] at hfr
        simp only at hfr
        rcases res2 with e2 | tip?
        · exact ⟨d0, by simp [him, hfr.1, hd0]⟩
        · rcases tip? with _ | tip
          · exact ⟨d0, by simp [him, hfr.1, hd0]⟩
          · obtain ⟨d1, hd1⟩ := syncLoop_events_mono vm peer headInfo fuel tip st2
            exact ⟨d0 ++ d1, by simp [him, hd1, hfr.1, hd0]⟩
    · simp only [hlt, if_false]
      exact ⟨[], by simp⟩

/-- C4: the fetch loop of `process_announcement` repeats while
`start < head_info.block_number`; each iteration requests a batch starting
exactly at `start` (re-requesting the last synced block, not `start + 1`),
imports the returned headers in the order received — each validated
against the database state of its turn and then persisted, appended in
order — and continues with `start` set to the block number of the last
imported header. -/
theorem process_announcement_fetch_loop (vm : Nat → BlockHeader → BlockHeader → Bool)
    (peer : Peer) (headInfo : HeadInfo) :
    (∀ (fuel startBlock : Nat) (st : SyncSt),
      ¬ startBlock < headInfo.blockNumber →
      syncLoop vm peer headInfo (fuel + 1) startBlock st = (.ok (), st)) ∧
    (∀ (fuel startBlock : Nat) (st : SyncSt),
      startBlock < headInfo.blockNumber → startBlock ≠ 0 → ∃ d,
      (syncLoop vm peer headInfo (fuel + 1) startBlock st).2.events
        = st.events
          ++ Ev.sendGetBlockHeaders startBlock peer.maxHeadersFetch false :: d) ∧
    (∀ (fuel startBlock : Nat) (st st1 st2 : SyncSt) (batch : List BlockHeader)
        (tip : Nat),
      startBlock < headInfo.blockNumber →
      fetch_headers peer startBlock st = (.ok batch, st1) →
      import_headers_from_peer vm batch none st1 = (.ok (some tip), st2) →
      syncLoop vm peer headInfo (fuel + 1) startBlock st
        = syncLoop vm peer headInfo fuel tip st2) ∧
    (∀ (batch : List BlockHeader) (tip : Option Nat) (st st' : SyncSt)
        (r : Option Nat),
      import_headers_from_peer vm batch tip st = (.ok r, st') →
      importValidatesB vm st.db batch = true ∧
      st'.db.persisted = st.db.persisted ++ batch ∧
      (∀ b : BlockHeader, batch.getLast? = some b → r = some b.blockNumber)) := by
  refine ⟨?_, ?_, ?_, ?_⟩
  · intro fuel startBlock st h
    rw [syncLoop]
    simp [h]
  · intro fuel startBlock st hlt hsb
    rw [syncLoop]
    simp only [hlt, if_true]
    obtain ⟨d0, hd0⟩ := fetch_headers_events_prefix peer startBlock st hsb
    rcases hf : fetch_headers peer startBlock st with ⟨res, st1⟩
    rw [hf] at hd0
    simp only at hd0
    rcases res with e | batch
    · exact ⟨d0, hd0⟩
    · have hfr := import_headers_frame vm batch none st1
      rcases him : import_headers_from_peer vm batch none st1 with ⟨res2, st2⟩
      rw [him] at hfr
      simp only at hfr
      rcases res2 with e2 | tip?
      · exact ⟨d0, by simp [him, hfr.1, hd0]⟩
      · rcases tip? with _ | tip
        · exact ⟨d0, by simp [him, hfr.1, hd0]⟩
        · obtain ⟨d1, hd1⟩ := syncLoop_events_mono vm peer headInfo fuel tip st2
          exact ⟨d0 ++ d1, by simp [him, hd1, hfr.1, hd0]⟩
  · intro fuel startBlock st st1 st2 batch tip hlt hf him
    rw [syncLoop]
    simp only [hlt, if_true]
    rw [hf]
    simp [him]
  · intro batch tip st st' r h
    have := import_headers_ok vm batch tip st st' r h
    exact ⟨this.1, this.2.1, this.2.2.2⟩

/-- Witness for `process_announcement_fetch_loop` at concrete inputs. -/
theorem process_announcement_fetch_loop_witness :
    (syncLoop (fun _ _ _ => true) ⟨1, 10⟩ ⟨99, 3, 0, 0⟩ (0 + 1) 5
        ⟨⟨[⟨0, 0, 0, 0⟩], ⟨0, 0, 0, 0⟩⟩, [], []⟩
      = (.ok (), ⟨⟨[⟨0, 0, 0, 0⟩], ⟨0, 0, 0, 0⟩⟩, [], []⟩)) ∧
    (∃ d, (syncLoop (fun _ _ _ => true) ⟨1, 10⟩ ⟨99, 3, 0, 0⟩ (0 + 1) 1
        ⟨⟨[⟨0, 0, 0, 0⟩], ⟨0, 0, 0, 0⟩⟩,
          [FetchOutcome.reply [⟨1, 0, 0, 0⟩, ⟨2, 2, 0, 0⟩]], []⟩).2.events
      = ([] : List Ev) ++ Ev.sendGetBlockHeaders 1 10 false :: d) ∧
    (syncLoop (fun _ _ _ => true) ⟨1, 10⟩ ⟨99, 3, 0, 0⟩ (0 + 1) 1
        ⟨⟨[⟨0, 0, 0, 0⟩], ⟨0, 0, 0, 0⟩⟩,
          [FetchOutcome.reply [⟨1, 0, 0, 0⟩, ⟨2, 2, 0, 0⟩]], []⟩
      = syncLoop (fun _ _ _ => true) ⟨1, 10⟩ ⟨99, 3, 0, 0⟩ 0 2
          ⟨⟨[⟨0, 0, 0, 0⟩, ⟨1, 0, 0, 0⟩, ⟨2, 2, 0, 0⟩], ⟨0, 0, 0, 0⟩⟩, [],
            [Ev.sendGetBlockHeaders 1 10 false]⟩) ∧
    (importValidatesB (fun _ _ _ => true) ⟨[⟨0, 0, 0, 0⟩], ⟨0, 0, 0, 0⟩⟩
        [⟨1, 0, 0, 0⟩, ⟨2, 2, 0, 0⟩] = true ∧
      (⟨⟨[⟨0, 0, 0, 0⟩, ⟨1, 0, 0, 0⟩, ⟨2, 2, 0, 0⟩], ⟨0, 0, 0, 0⟩⟩, [],
          [Ev.sendGetBlockHeaders 1 10 false]⟩ : SyncSt).db.persisted
        = (⟨⟨[⟨0, 0, 0, 0⟩], ⟨0, 0, 0, 0⟩⟩, [],
            [Ev.sendGetBlockHeaders 1 10 false]⟩ : SyncSt).db.persisted
          ++ [⟨1, 0, 0, 0⟩, ⟨2, 2, 0, 0⟩] ∧
      (some 2 : Option Nat) = some (BlockHeader.blockNumber ⟨2, 2, 0, 0⟩)) :=
  ⟨(process_announcement_fetch_loop (fun _ _ _ => true) ⟨1, 10⟩ ⟨99, 3, 0, 0⟩).1
      0 5 ⟨⟨[⟨0, 0, 0, 0⟩], ⟨0, 0, 0, 0⟩⟩, [], []⟩ (by decide),
   (process_announcement_fetch_loop (fun _ _ _ => true) ⟨1, 10⟩ ⟨99, 3, 0, 0⟩).2.1
      0 1 ⟨⟨[⟨0, 0, 0, 0⟩], ⟨0, 0, 0, 0⟩⟩,
        [FetchOutcome.reply [⟨1, 0, 0, 0⟩, ⟨2, 2, 0, 0⟩]], []⟩ (by decide) (by decide),
   (process_announcement_fetch_loop (fun _ _ _ => true) ⟨1, 10⟩ ⟨99, 3, 0, 0⟩).2.2.1
      0 1 ⟨⟨[⟨0, 0, 0, 0⟩], ⟨0, 0, 0, 0⟩⟩,
        [FetchOutcome.reply [⟨1, 0, 0, 0⟩, ⟨2, 2, 0, 0⟩]], []⟩
      ⟨⟨[⟨0, 0, 0, 0⟩], ⟨0, 0, 0, 0⟩⟩, [], [Ev.sendGetBlockHeaders 1 10 false]⟩
      ⟨⟨[⟨0, 0, 0, 0⟩, ⟨1, 0, 0, 0⟩, ⟨2, 2, 0, 0⟩], ⟨0, 0, 0, 0⟩⟩, [],
        [Ev.sendGetBlockHeaders 1 10 false]⟩
      [⟨1, 0, 0, 0⟩, ⟨2, 2, 0, 0⟩] 2 (by decide) rfl rfl,
   (fun t => ⟨t.1, t.2.1, t.2.2 ⟨2, 2, 0, 0⟩ rfl⟩)
     ((process_announcement_fetch_loop (fun _ _ _ => true) ⟨1, 10⟩ ⟨99, 3, 0, 0⟩).2.2.2
        [⟨1, 0, 0, 0⟩, ⟨2, 2, 0, 0⟩] none
        ⟨⟨[⟨0, 0, 0, 0⟩], ⟨0, 0, 0, 0⟩⟩, [], [Ev.sendGetBlockHeaders 1 10 false]⟩
        ⟨⟨[⟨0, 0, 0, 0⟩, ⟨1, 0, 0, 0⟩, ⟨2, 2, 0, 0⟩], ⟨0, 0, 0, 0⟩⟩, [],
          [Ev.sendGetBlockHeaders 1 10 false]⟩
        (some 2) rfl)⟩

theorem headerChainValidatedAux_append (vm : Nat → BlockHeader → BlockHeader → Bool) :
    ∀ (xs prev : List BlockHeader) (h : BlockHeader),
      headerChainValidatedAux vm prev (xs ++ [h])
        = (headerChainValidatedAux vm prev xs
            && (h.blockNumber == 0
              || (prev ++ xs).any (fun p => p.hash == h.parentHash && vm h.blockNumber h p)))
  | [], prev, h => by
    simp [headerChainValidatedAux]
  | x :: xs, prev, h => by
    rw [List.cons_append, headerChainValidatedAux, headerChainValidatedAux,
      headerChainValidatedAux_append vm xs (prev ++ [x]) h]
    simp [Bool.and_assoc, List.append_assoc]

theorem headerChainValidated_persist (vm : Nat → BlockHeader → BlockHeader → Bool)
    (db : HeaderDB) (h : BlockHeader)
    (hv : validate_header_against_db vm db h = .ok ())
    (hinv : headerChainValidated vm db.persisted = true) :
    headerChainValidated vm (db.persist_header h).persisted = true := by
  by_cases hg : h.is_genesis = true
  · rw [validate_header_against_db] at hv
    simp [hg] at hv
  · have hg' : h.is_genesis = false := by simpa using hg
    rw [validate_header_against_db] at hv
    simp only [hg', Bool.false_eq_true, if_false] at hv
    cases hfind : db.get_block_header_by_hash h.parentHash with
    | none => rw [hfind] at hv; simp at hv
    | some parent =>
      rw [hfind] at hv
      by_cases hvm : vm h.blockNumber h parent = true
      · rw [HeaderDB.get_block_header_by_hash] at hfind
        have hmem : parent ∈ db.persisted := List.mem_of_find?_eq_some hfind
        have hpred := List.find?_some hfind
        have hany : db.persisted.any
            (fun p => p.hash == h.parentHash && vm h.blockNumber h p) = true := by
          refine List.any_eq_true.mpr ⟨parent, hmem, ?_⟩
          rw [Bool.and_eq_true]
          exact ⟨hpred, hvm⟩
        rw [HeaderDB.persist_header]
        rw [headerChainValidated] at hinv ⊢
        rw [headerChainValidatedAux_append]
        simp [hinv, hany]
      · simp [hvm] at hv

/-- C1 amended: the batch import `_import_headers_from_peer` preserves the
invariant that every persisted header with block number > 0 was accepted
by `validate_header` against some header persisted strictly before it
whose hash is its parent hash — each imported header is validated against
the current database (parent fetched by hash, VM rules applied) before it
is persisted. The first-contact persist loop of `get_sync_start_block`,
by contrast, persists fetched headers without any validation. -/
theorem import_preserves_header_chain_validated
    (vm : Nat → BlockHeader → BlockHeader → Bool) :
    ∀ (batch : List BlockHeader) (tip : Option Nat) (st : SyncSt)
      (r : Except Err (Option Nat)) (st' : SyncSt),
      headerChainValidated vm st.db.persisted = true →
      import_headers_from_peer vm batch tip st = (r, st') →
      headerChainValidated vm st'.db.persisted = true
  | [], tip, st, r, st', hinv, h => by
    rw [import_headers_from_peer] at h
    obtain ⟨-, h2⟩ := Prod.mk.inj h
    exact h2 ▸ hinv
  | h0 :: rest, tip, st, r, st', hinv, h => by
    rw [import_headers_from_peer] at h
    cases hv : validate_header_against_db vm st.db h0 with
    | error e =>
      rw [hv] at h
      cases e <;> (obtain ⟨-, h2⟩ := Prod.mk.inj h; exact h2 ▸ hinv)
    | ok u =>
      cases u
      rw [hv] at h
      exact import_preserves_header_chain_validated vm rest (some h0.blockNumber)
        { st with db := st.db.persist_header h0 } r st'
        (headerChainValidated_persist vm st.db h0 hv hinv) h

/-- Witness for `import_preserves_header_chain_validated` at concrete
inputs. -/
theorem import_preserves_header_chain_validated_witness :
    headerChainValidated (fun _ _ _ => true)
      ((⟨⟨[⟨0, 0, 0, 0⟩, ⟨1, 0, 0, 0⟩], ⟨0, 0, 0, 0⟩⟩, [], []⟩ : SyncSt)).db.persisted
      = true :=
  import_preserves_header_chain_validated (fun _ _ _ => true)
    [⟨1, 0, 0, 0⟩] none ⟨⟨[⟨0, 0, 0, 0⟩], ⟨0, 0, 0, 0⟩⟩, [], []⟩
    (.ok (some 1)) ⟨⟨[⟨0, 0, 0, 0⟩, ⟨1, 0, 0, 0⟩], ⟨0, 0, 0, 0⟩⟩, [], []⟩
    (by decide) rfl

/-- C1 counterexample: a successful first-contact run of
`get_sync_start_block` persists a fetched header (block number 5, parent
hash 777) through its persist loop without any validation: the header's
parent was never persisted and the VM rules (which only ever accept
block-1 headers here) were never consulted, so the claimed invariant is
false of the resulting database. -/
theorem persisted_without_validation_cex :
    headerChainValidated (fun n _ _ => n == 1)
      ((⟨⟨[⟨0, 0, 0, 0⟩, ⟨1, 0, 0, 0⟩], ⟨1, 0, 0, 0⟩⟩,
        [FetchOutcome.reply [⟨5, 777, 0, 0⟩]], []⟩ : SyncSt)).db.persisted = true ∧
    (get_sync_start_block ⟨1, 100⟩ [] ⟨999, 9, 0, 0⟩
      ⟨⟨[⟨0, 0, 0, 0⟩, ⟨1, 0, 0, 0⟩], ⟨1, 0, 0, 0⟩⟩,
        [FetchOutcome.reply [⟨5, 777, 0, 0⟩]], []⟩).1 = .ok 1 ∧
    headerChainValidated (fun n _ _ => n == 1)
      (get_sync_start_block ⟨1, 100⟩ [] ⟨999, 9, 0, 0⟩
        ⟨⟨[⟨0, 0, 0, 0⟩, ⟨1, 0, 0, 0⟩], ⟨1, 0, 0, 0⟩⟩,
          [FetchOutcome.reply [⟨5, 777, 0, 0⟩]], []⟩).2.db.persisted = false :=
  ⟨rfl, rfl, rfl⟩

/-- C10: when a batch fetch inside the fetch loop of
`process_announcement` (the start block already computed, so past
`get_sync_start_block`'s own handler, which wraps only the first-contact
fetch) receives an empty headers reply, `EmptyGetBlockHeadersReply`
propagates uncaught out of `process_announcement`, and the processor's
generic exception branch drops the peer: its `LastProcessedAnnouncements`
entry is removed and the peer cancelled, with no disconnect event (in
particular no `subprotocol_error`). -/
theorem empty_reply_in_fetch_loop_drops_peer
    (vm : Nat → BlockHeader → BlockHeader → Bool) (peer : Peer)
    (lp : LastProcessed) (headInfo : HeadInfo) (fuel : Nat) (st st1 : SyncSt)
    (startBlock : Nat) (rest : List FetchOutcome)
    (hknown : st.db.header_exists headInfo.blockHash = false)
    (hstart : get_sync_start_block peer lp headInfo st = (.ok startBlock, st1))
    (hlt : startBlock < headInfo.blockNumber)
    (hsb : startBlock ≠ 0)
    (horacle : st1.oracle = FetchOutcome.reply [] :: rest) :
    process_announcement vm peer lp headInfo (fuel + 1) st
      = (.error .emptyGetBlockHeadersReply,
         { st1 with
             oracle := rest
             events := st1.events ++ [Ev.sendGetBlockHeaders startBlock
               peer.maxHeadersFetch false] }) ∧
    handle_announcement vm peer headInfo (fuel + 1) lp st
      = (lpPop lp peer.id,
         { st1 with
             oracle := rest
             events := (st1.events ++ [Ev.sendGetBlockHeaders startBlock
               peer.maxHeadersFetch false]) ++ [Ev.cancelPeer peer.id] },
         .next) := by
  have hfetch := fetch_headers_first_empty peer startBlock st1 rest hsb horacle
  have hmain : process_announcement vm peer lp headInfo (fuel + 1) st
      = (.error .emptyGetBlockHeadersReply,
         { st1 with
             oracle := rest
             events := st1.events ++ [Ev.sendGetBlockHeaders startBlock
               peer.maxHeadersFetch false] }) := by
    rw [process_announcement]
    simp only [hknown, Bool.false_eq_true, if_false]
    simp only [hstart]
    rw [syncLoop]
    simp only [hlt, if_true]
    simp [hfetch]
  exact ⟨hmain, by simp [handle_announcement, hmain, drop_peer]⟩

/-- Witness for `empty_reply_in_fetch_loop_drops_peer` at concrete
inputs. -/
theorem empty_reply_in_fetch_loop_drops_peer_witness :
    process_announcement (fun _ _ _ => true) ⟨1, 10⟩ [(1, ⟨5, 5, 0, 0⟩)] ⟨999, 9, 0, 0⟩
        (0 + 1) ⟨⟨[⟨0, 0, 0, 0⟩, ⟨1, 0, 0, 0⟩], ⟨1, 0, 0, 0⟩⟩,
          [FetchOutcome.reply []], []⟩
      = (.error .emptyGetBlockHeadersReply,
         ⟨⟨[⟨0, 0, 0, 0⟩, ⟨1, 0, 0, 0⟩], ⟨1, 0, 0, 0⟩⟩, [],
          [Ev.sendGetBlockHeaders 5 10 false]⟩) ∧
    handle_announcement (fun _ _ _ => true) ⟨1, 10⟩ ⟨999, 9, 0, 0⟩ (0 + 1)
        [(1, ⟨5, 5, 0, 0⟩)] ⟨⟨[⟨0, 0, 0, 0⟩, ⟨1, 0, 0, 0⟩], ⟨1, 0, 0, 0⟩⟩,
          [FetchOutcome.reply []], []⟩
      = (lpPop [(1, ⟨5, 5, 0, 0⟩)] 1,
         ⟨⟨[⟨0, 0, 0, 0⟩, ⟨1, 0, 0, 0⟩], ⟨1, 0, 0, 0⟩⟩, [],
          [Ev.sendGetBlockHeaders 5 10 false] ++ [Ev.cancelPeer 1]⟩,
         .next) := by
  have h := empty_reply_in_fetch_loop_drops_peer (fun _ _ _ => true) ⟨1, 10⟩
    [(1, ⟨5, 5, 0, 0⟩)] ⟨999, 9, 0, 0⟩ 0
    ⟨⟨[⟨0, 0, 0, 0⟩, ⟨1, 0, 0, 0⟩], ⟨1, 0, 0, 0⟩⟩, [FetchOutcome.reply []], []⟩
    ⟨⟨[⟨0, 0, 0, 0⟩, ⟨1, 0, 0, 0⟩], ⟨1, 0, 0, 0⟩⟩, [FetchOutcome.reply []], []⟩
    5 [] (by decide) rfl (by decide) (by decide) rfl
  exact ⟨h.1, h.2⟩

end LightChain
